import Mathlib

/-!
Shallow embedding of the "Chromatic Vision" odd-color-out game
(src/src/App.tsx and src/unnamed/part_000; the two files contain the
same game logic).

The logic core consists of
* pure color/difficulty helpers: `generateRandomColor`, `getDifferentColor`
  and the grid-size formula inlined in `generateLevel`;
* a state machine over `GameState` (score, timeLeft, level, status,
  gridSize) and a colors record (base color, variant color, variant index),
  driven by `startGame`, `handleBlockClick` and the 1-second interval
  callback (modelled as `tickFn`).

`Math.random()` draws are modelled by explicit parameters: each draw in
`[0,1)` becomes a rational argument (every IEEE double in `[0,1)` is a
rational number), and the boolean `Math.random() > 0.5` test becomes a
`Bool` argument, bundled in a `RandSrc` record that every
randomness-consuming operation receives.  `Math.log2` is embedded as
`Real.logb 2`, so real-number arithmetic stands in for double arithmetic.
-/

namespace ChromaticVision

/-- Source constant `INITIAL_TIME = 30`. -/
def INITIAL_TIME : ℤ := 30

/-- Source constant `INITIAL_GRID_SIZE = 2`. -/
def INITIAL_GRID_SIZE : ℕ := 2

/-- Source constant `MAX_GRID_SIZE = 8`. -/
def MAX_GRID_SIZE : ℕ := 8

/-- Source constant `BASE_DIFFERENCE = 40`. -/
noncomputable def BASE_DIFFERENCE : ℝ := 40

/-- The `status` field of `GameState`: `'idle' | 'playing' | 'gameover'`. -/
inductive Status
  | idle
  | playing
  | gameover
deriving DecidableEq

/-- Source `interface Color` with the three HSL channels `h`, `s`, `l`. -/
structure Color where
  h : ℝ
  s : ℝ
  l : ℝ

/-- Source `interface GameState` with score, timeLeft, level, status and
gridSize. -/
structure GameState where
  score : ℕ
  timeLeft : ℤ
  level : ℕ
  status : Status
  gridSize : ℕ

/-- The `colors` state: `{ base: Color; diff: Color; diffIndex: number }`. -/
structure ColorsState where
  base : Color
  diff : Color
  diffIndex : ℤ

/-- The two React state records of the app together. -/
structure AppState where
  game : GameState
  colors : ColorsState

/-- One batch of `Math.random()` draws consumed by `generateLevel`:
`u1, u2, u3` feed `generateRandomColor`, `changeLightness` is the result of
the `Math.random() > 0.5` test in `getDifferentColor`, and `uIdx` feeds the
variant-index draw.  Each `uN`/`uIdx` models a draw from `[0,1)`. -/
structure RandSrc where
  u1 : ℚ
  u2 : ℚ
  u3 : ℚ
  changeLightness : Bool
  uIdx : ℚ

/-- Source function `generateRandomColor`: hue `Math.floor(r*360)`, saturation
`Math.floor(r*40)+40`, lightness `Math.floor(r*40)+30`. -/
noncomputable def generateRandomColor (r : RandSrc) : Color :=
  { h := ((⌊r.u1 * 360⌋ : ℤ) : ℝ)
    s := ((⌊r.u2 * 40⌋ : ℤ) : ℝ) + 40
    l := ((⌊r.u3 * 40⌋ : ℤ) : ℝ) + 30 }

/-- The perturbation magnitude computed in `getDifferentColor`:
`Math.max(2, BASE_DIFFERENCE / (1 + Math.log2(level + 1) * 0.8))`. -/
noncomputable def diffDelta (level : ℕ) : ℝ :=
  max 2 (BASE_DIFFERENCE / (1 + Real.logb 2 ((level : ℝ) + 1) * 0.8))

/-- Source function `getDifferentColor(base, level)`, with the `Math.random() > 0.5`
outcome passed in as `changeLightness`. -/
noncomputable def getDifferentColor (base : Color) (level : ℕ)
    (changeLightness : Bool) : Color :=
  let diff := diffDelta level
  { h := base.h
    l := if changeLightness then
           (if base.l + diff > 90 then base.l - diff else base.l + diff)
         else base.l
    s := if !changeLightness then
           (if base.s + diff > 90 then base.s - diff else base.s + diff)
         else base.s }

/-- The grid-size formula inlined in `generateLevel`
(`Math.min(MAX_GRID_SIZE, INITIAL_GRID_SIZE + Math.floor(level / 3))`),
called `gridSizeForLevel` in the design spec. -/
def gridSizeForLevel (level : ℕ) : ℕ :=
  min MAX_GRID_SIZE (INITIAL_GRID_SIZE + level / 3)

/-- Source function `generateLevel(level)`: fresh base and variant colors, new grid size,
and a variant index `Math.floor(random * (newGridSize * newGridSize))`. -/
noncomputable def generateLevel (level : ℕ) (r : RandSrc) (st : AppState) :
    AppState :=
  let base := generateRandomColor r
  let diff := getDifferentColor base level r.changeLightness
  let newGridSize := gridSizeForLevel level
  let diffIndex : ℤ := ⌊r.uIdx * ((newGridSize * newGridSize : ℕ) : ℚ)⌋
  { game := { st.game with gridSize := newGridSize }
    colors := { base := base, diff := diff, diffIndex := diffIndex } }

/-- Source function `startGame`: reset the game record and generate level 1. -/
noncomputable def startGame (r : RandSrc) (st : AppState) : AppState :=
  generateLevel 1 r
    { st with
      game :=
        { score := 0
          timeLeft := INITIAL_TIME
          level := 1
          status := Status.playing
          gridSize := INITIAL_GRID_SIZE } }

/-- Source function `handleBlockClick(index)`, with the draws for the possible
`generateLevel` call passed in as `r`. -/
noncomputable def handleBlockClick (index : ℤ) (r : RandSrc)
    (st : AppState) : AppState :=
  if st.game.status ≠ Status.playing then st
  else if index = st.colors.diffIndex then
    let nextLevel := st.game.level + 1
    generateLevel nextLevel r
      { st with
        game :=
          { st.game with
            score := st.game.score + 1
            level := nextLevel
            timeLeft := st.game.timeLeft + 1 } }
  else
    { st with
      game := { st.game with timeLeft := max 0 (st.game.timeLeft - 3) } }

/-- The body of the `setInterval` callback in the timer effect:
`prev.timeLeft <= 1` ends the game at `timeLeft = 0`, otherwise the time
is decremented by 1. -/
def tickFn (st : AppState) : AppState :=
  if st.game.timeLeft ≤ 1 then
    { st with game := { st.game with timeLeft := 0, status := Status.gameover } }
  else
    { st with game := { st.game with timeLeft := st.game.timeLeft - 1 } }

/-- The interval only runs while the status is `playing`: it is installed
when the status becomes `playing` (with `timeLeft = 30 > 0`) and cleared by
the effect whenever the status changes away from `playing`. -/
def tickEnabled (st : AppState) : Prop :=
  st.game.status = Status.playing

/-- One in-session event: a block click (any integer index, with fresh
draws for a possible regeneration) or a timer tick (only while the interval
is running). -/
inductive SessionStep : AppState → AppState → Prop
  | click (i : ℤ) (r : RandSrc) (st : AppState) :
      SessionStep st (handleBlockClick i r st)
  | tick (st : AppState) (hp : tickEnabled st) :
      SessionStep st (tickFn st)

/-- Reachability by a sequence of in-session events (no restart). -/
def Reachable (s s' : AppState) : Prop :=
  Relation.ReflTransGen SessionStep s s'

/-- The color shown by cell `i` of the grid:
`i === colors.diffIndex ? colors.diff : colors.base`. -/
def renderCell (c : ColorsState) (i : ℤ) : Color :=
  if i = c.diffIndex then c.diff else c.base

/-! Concrete fixtures used to instantiate the theorems below. -/

/-- A fixed batch of draws (all draws 0, lightness chosen). -/
def r0 : RandSrc := ⟨0, 0, 0, true, 0⟩

/-- The initial (idle) app state, as set up by the two `useState` calls. -/
noncomputable def idleApp : AppState :=
  { game :=
      { score := 0, timeLeft := 30, level := 1, status := Status.idle,
        gridSize := 2 }
    colors := { base := ⟨0, 0, 0⟩, diff := ⟨0, 0, 0⟩, diffIndex := -1 } }

/-- A representative mid-game state with the timer running. -/
noncomputable def playingApp : AppState :=
  { game :=
      { score := 0, timeLeft := 30, level := 1, status := Status.playing,
        gridSize := 2 }
    colors := { base := ⟨0, 50, 50⟩, diff := ⟨0, 50, 60⟩, diffIndex := 0 } }

/-- A terminal game-over state. -/
noncomputable def gameoverApp : AppState :=
  { game :=
      { score := 4, timeLeft := 0, level := 5, status := Status.gameover,
        gridSize := 3 }
    colors := { base := ⟨0, 50, 50⟩, diff := ⟨0, 50, 60⟩, diffIndex := 2 } }

/-! ## Claim theorems -/

/-- Claim C6: for every level L ≥ 1 the grid size computed for L equals
min(8, 2 + ⌊L/3⌋), lies in [2,8], is non-decreasing in L, saturates at 8,
and in particular equals 5 at level 9 and 8 at level 19. -/
theorem C6_gridSizeForLevel_spec (L : ℕ) (hL : 1 ≤ L) :
    gridSizeForLevel L = min 8 (2 + L / 3) ∧
    2 ≤ gridSizeForLevel L ∧ gridSizeForLevel L ≤ 8 ∧
    (∀ M : ℕ, L ≤ M → gridSizeForLevel L ≤ gridSizeForLevel M) ∧
    (∀ M : ℕ, 18 ≤ M → gridSizeForLevel M = 8) ∧
    gridSizeForLevel 9 = 5 ∧ gridSizeForLevel 19 = 8 := by
  unfold gridSizeForLevel MAX_GRID_SIZE INITIAL_GRID_SIZE
  refine ⟨rfl, by omega, by omega, ?_, ?_, by norm_num, by norm_num⟩
  · intro M hM
    omega
  · intro M hM
    omega

/-- Witness for C6 at level 1. -/
theorem C6_gridSizeForLevel_spec_witness : gridSizeForLevel 9 = 5 :=
  (C6_gridSizeForLevel_spec 1 (by decide)).2.2.2.2.2.1

/-- Claim C9: when the status is idle or gameover, a selection event is a
no-op: the whole app state (game record and colors) is returned unchanged,
with no error. -/
theorem C9_selection_noop (st : AppState) (r : RandSrc) (i : ℤ)
    (hst : st.game.status = Status.idle ∨ st.game.status = Status.gameover) :
    handleBlockClick i r st = st := by
  unfold handleBlockClick
  rcases hst with hs | hs <;> simp [hs]

/-- Witness for C9 on the idle fixture. -/
theorem C9_selection_noop_witness : handleBlockClick 0 r0 idleApp = idleApp :=
  C9_selection_noop idleApp r0 0 (Or.inl rfl)

/-- Claim C4: while playing, an incorrect selection sets
timeLeft := max(0, timeLeft − 3) and changes nothing else (score, level,
gridSize, status, colors, variant index all unchanged — expressed by the
full-record equality); the result is never negative, and timeLeft = 2 goes
to 0, not −1. -/
theorem C4_incorrect_selection (st : AppState) (r : RandSrc) (i : ℤ)
    (hp : st.game.status = Status.playing) (hi : i ≠ st.colors.diffIndex) :
    handleBlockClick i r st =
      { st with
        game := { st.game with timeLeft := max 0 (st.game.timeLeft - 3) } } ∧
    0 ≤ (handleBlockClick i r st).game.timeLeft ∧
    (st.game.timeLeft = 2 → (handleBlockClick i r st).game.timeLeft = 0) := by
  have he : handleBlockClick i r st =
      { st with
        game := { st.game with timeLeft := max 0 (st.game.timeLeft - 3) } } := by
    unfold handleBlockClick
    simp [hp, hi]
  refine ⟨he, ?_, ?_⟩
  · rw [he]
    exact le_max_left _ _
  · intro h2
    rw [he]
    simp only
    omega

/-- Witness for C4 at a concrete playing state and index 1 ≠ 0. -/
theorem C4_incorrect_selection_witness :
    0 ≤ (handleBlockClick 1 r0 playingApp).game.timeLeft :=
  (C4_incorrect_selection playingApp r0 1 rfl (by decide)).2.1

/-- Claim C10: the selection handler performs no range validation: while
playing, any integer index different from the variant index — here an
explicitly out-of-range one, negative or ≥ gridSize² — is processed as an
incorrect selection and receives the timeLeft penalty instead of being
rejected or ignored. -/
theorem C10_no_range_validation (st : AppState) (r : RandSrc) (i : ℤ)
    (hp : st.game.status = Status.playing)
    (_hout : i < 0 ∨ (st.game.gridSize : ℤ) * st.game.gridSize ≤ i)
    (hi : i ≠ st.colors.diffIndex) :
    handleBlockClick i r st =
      { st with
        game := { st.game with timeLeft := max 0 (st.game.timeLeft - 3) } } := by
  unfold handleBlockClick
  simp [hp, hi]

/-- Witness for C10 with the negative index −5. -/
theorem C10_no_range_validation_witness :
    handleBlockClick (-5) r0 playingApp =
      { playingApp with
        game :=
          { playingApp.game with
            timeLeft := max 0 (playingApp.game.timeLeft - 3) } } :=
  C10_no_range_validation playingApp r0 (-5) rfl (Or.inl (by decide))
    (by decide)

/-- Claim C2: while playing, a correct selection (index equals the variant
index) increments score and level by 1, adds 1 to timeLeft (no cap), keeps
the status playing, and regenerates the level: the grid size is recomputed
for the new level and the colors record (base, variant, variant index) is
the one produced by `generateLevel` for the new level.  In particular,
start followed immediately by one correct selection yields score 1,
level 2, timeLeft 31 and gridSize 2. -/
theorem C2_correct_selection (st : AppState) (r : RandSrc) (i : ℤ)
    (hp : st.game.status = Status.playing) (hi : i = st.colors.diffIndex) :
    (handleBlockClick i r st).game.score = st.game.score + 1 ∧
    (handleBlockClick i r st).game.level = st.game.level + 1 ∧
    (handleBlockClick i r st).game.timeLeft = st.game.timeLeft + 1 ∧
    (handleBlockClick i r st).game.status = Status.playing ∧
    (handleBlockClick i r st).game.gridSize =
      gridSizeForLevel (st.game.level + 1) ∧
    (handleBlockClick i r st).colors =
      (generateLevel (st.game.level + 1) r st).colors ∧
    (∀ (st0 : AppState) (ra rb : RandSrc),
        (handleBlockClick (startGame ra st0).colors.diffIndex rb
              (startGame ra st0)).game =
          { score := 1, timeLeft := 31, level := 2, status := Status.playing,
            gridSize := 2 }) := by
  have he : handleBlockClick i r st =
      generateLevel (st.game.level + 1) r
        { st with
          game :=
            { st.game with
              score := st.game.score + 1
              level := st.game.level + 1
              timeLeft := st.game.timeLeft + 1 } } := by
    unfold handleBlockClick
    simp [hp, hi]
  refine ⟨?_, ?_, ?_, ?_, ?_, ?_, ?_⟩
  · rw [he]; simp [generateLevel]
  · rw [he]; simp [generateLevel]
  · rw [he]; simp [generateLevel]
  · rw [he]; simp [generateLevel, hp]
  · rw [he]; simp [generateLevel]
  · rw [he]; simp [generateLevel]
  · intro st0 ra rb
    simp [handleBlockClick, startGame, generateLevel, gridSizeForLevel,
      INITIAL_TIME, INITIAL_GRID_SIZE, MAX_GRID_SIZE]

/-- Witness for C2 at a concrete playing state, selecting the variant. -/
theorem C2_correct_selection_witness :
    (handleBlockClick playingApp.colors.diffIndex r0 playingApp).game.score =
      playingApp.game.score + 1 :=
  (C2_correct_selection playingApp r0 playingApp.colors.diffIndex rfl rfl).1

/-- Helper: a playing state with `timeLeft = k + 1` reaches, after exactly
`k + 1` ticks, the terminal record with `timeLeft = 0`, status gameover,
and all other game fields unchanged. -/
theorem tickFn_run_out (k : ℕ) :
    ∀ st : AppState, st.game.status = Status.playing →
      st.game.timeLeft = (k : ℤ) + 1 →
      (tickFn^[k + 1] st).game =
        { st.game with timeLeft := 0, status := Status.gameover } := by
  induction k with
  | zero =>
      intro st hp ht
      have h1 : st.game.timeLeft ≤ 1 := by omega
      simp [tickFn, h1]
  | succ n ih =>
      intro st hp ht
      rw [Function.iterate_succ_apply]
      have h1 : ¬ st.game.timeLeft ≤ 1 := by omega
      have hstep : tickFn st =
          { st with
            game := { st.game with timeLeft := st.game.timeLeft - 1 } } := by
        simp [tickFn, h1]
      rw [hstep]
      have := ih
        { st with game := { st.game with timeLeft := st.game.timeLeft - 1 } }
        (by simpa using hp) (by simp; omega)
      simpa using this

/-- Claim C3: while playing with timeLeft > 0, a tick decrements timeLeft
by exactly 1 and stays playing, except that when the decrement would reach
≤ 0 (timeLeft = 1) the tick sets timeLeft = 0 and status gameover; ticks
are only processed while the status is playing, so none fire after
gameover; and a fresh game left alone for 30 ticks ends with timeLeft 0,
status gameover and score 0. -/
theorem C3_tick_spec (st : AppState) (hp : st.game.status = Status.playing)
    (_ht : 0 < st.game.timeLeft) :
    (1 < st.game.timeLeft →
      tickFn st =
        { st with
          game := { st.game with timeLeft := st.game.timeLeft - 1 } } ∧
      (tickFn st).game.status = Status.playing) ∧
    (st.game.timeLeft = 1 →
      tickFn st =
        { st with
          game :=
            { st.game with timeLeft := 0, status := Status.gameover } }) ∧
    (∀ st' : AppState, st'.game.status = Status.gameover → ¬ tickEnabled st') ∧
    (∀ (r : RandSrc) (st0 : AppState),
        (tickFn^[30] (startGame r st0)).game.timeLeft = 0 ∧
        (tickFn^[30] (startGame r st0)).game.status = Status.gameover ∧
        (tickFn^[30] (startGame r st0)).game.score = 0) := by
  refine ⟨?_, ?_, ?_, ?_⟩
  · intro h1
    have h2 : ¬ st.game.timeLeft ≤ 1 := by omega
    constructor
    · simp [tickFn, h2]
    · simp [tickFn, h2, hp]
  · intro h1
    simp [tickFn, h1]
  · intro st' hg henabled
    rw [tickEnabled, hg] at henabled
    exact Status.noConfusion henabled
  · intro r st0
    have hrun := tickFn_run_out 29 (startGame r st0)
      (by simp [startGame, generateLevel])
      (by simp [startGame, generateLevel, INITIAL_TIME])
    rw [show (29 : ℕ) + 1 = 30 from rfl] at hrun
    rw [hrun]
    simp [startGame, generateLevel]

/-- Witness for C3 at a concrete playing state with timeLeft 30. -/
theorem C3_tick_spec_witness :
    (tickFn playingApp).game.status = Status.playing :=
  ((C3_tick_spec playingApp rfl (by decide)).1 (by decide)).2

/-- Helper: a click never makes the remaining time negative. -/
theorem handleBlockClick_timeLeft_nonneg (i : ℤ) (r : RandSrc)
    (st : AppState) (h0 : 0 ≤ st.game.timeLeft) :
    0 ≤ (handleBlockClick i r st).game.timeLeft := by
  unfold handleBlockClick
  by_cases h1 : st.game.status ≠ Status.playing
  · simpa [h1] using h0
  · by_cases h2 : i = st.colors.diffIndex
    · simp [h1, h2, generateLevel]
      omega
    · simp [h1, h2]

/-- Helper: a tick never makes the remaining time negative. -/
theorem tickFn_timeLeft_nonneg (st : AppState) :
    0 ≤ (tickFn st).game.timeLeft := by
  unfold tickFn
  by_cases h1 : st.game.timeLeft ≤ 1
  · simp [h1]
  · simp [h1]
    omega

/-- Helper: the score never decreases across a click. -/
theorem handleBlockClick_score_le (i : ℤ) (r : RandSrc) (st : AppState) :
    st.game.score ≤ (handleBlockClick i r st).game.score := by
  unfold handleBlockClick
  by_cases h1 : st.game.status ≠ Status.playing
  · simp [h1]
  · by_cases h2 : i = st.colors.diffIndex
    · simp [h1, h2, generateLevel]
    · simp [h1, h2]

/-- Helper: the level never decreases across a click. -/
theorem handleBlockClick_level_le (i : ℤ) (r : RandSrc) (st : AppState) :
    st.game.level ≤ (handleBlockClick i r st).game.level := by
  unfold handleBlockClick
  by_cases h1 : st.game.status ≠ Status.playing
  · simp [h1]
  · by_cases h2 : i = st.colors.diffIndex
    · simp [h1, h2, generateLevel]
    · simp [h1, h2]

/-- Helper: a tick changes neither score nor level nor grid size. -/
theorem tickFn_frame (st : AppState) :
    (tickFn st).game.score = st.game.score ∧
    (tickFn st).game.level = st.game.level ∧
    (tickFn st).game.gridSize = st.game.gridSize := by
  unfold tickFn
  by_cases h1 : st.game.timeLeft ≤ 1 <;> simp [h1]

/-- Helper: from a gameover state, every in-session event returns the state
unchanged. -/
theorem sessionStep_gameover_fix {s s' : AppState} (h : SessionStep s s')
    (hg : s.game.status = Status.gameover) : s' = s := by
  cases h with
  | click i r st =>
      unfold handleBlockClick
      simp [hg]
  | tick st hp =>
      rw [tickEnabled, hg] at hp
      exact Status.noConfusion hp

/-- Helper: in-session steps preserve non-negativity of the time. -/
theorem sessionStep_timeLeft_nonneg {s s' : AppState} (h : SessionStep s s')
    (h0 : 0 ≤ s.game.timeLeft) : 0 ≤ s'.game.timeLeft := by
  cases h with
  | click i r => exact handleBlockClick_timeLeft_nonneg i r s h0
  | tick => exact tickFn_timeLeft_nonneg s

/-- Helper: in-session steps never decrease score or level. -/
theorem sessionStep_mono {s s' : AppState} (h : SessionStep s s') :
    s.game.score ≤ s'.game.score ∧ s.game.level ≤ s'.game.level := by
  cases h with
  | click i r =>
      exact ⟨handleBlockClick_score_le i r s, handleBlockClick_level_le i r s⟩
  | tick =>
      rw [(tickFn_frame s).1, (tickFn_frame s).2.1]
      exact ⟨le_refl _, le_refl _⟩

/-- Helper: non-negativity of the time along any in-session trace. -/
theorem reachable_timeLeft_nonneg {s s' : AppState} (h : Reachable s s')
    (h0 : 0 ≤ s.game.timeLeft) : 0 ≤ s'.game.timeLeft := by
  induction h with
  | refl => exact h0
  | tail _ hstep ih => exact sessionStep_timeLeft_nonneg hstep ih

/-- Helper: score and level monotonicity along any in-session trace. -/
theorem reachable_mono {s s' : AppState} (h : Reachable s s') :
    s.game.score ≤ s'.game.score ∧ s.game.level ≤ s'.game.level := by
  induction h with
  | refl => exact ⟨le_refl _, le_refl _⟩
  | tail _ hstep ih =>
      exact ⟨le_trans ih.1 (sessionStep_mono hstep).1,
        le_trans ih.2 (sessionStep_mono hstep).2⟩

/-- Helper: from a gameover state, any in-session trace stays put. -/
theorem reachable_gameover_fix {s s' : AppState} (h : Reachable s s')
    (hg : s.game.status = Status.gameover) : s' = s := by
  induction h with
  | refl => rfl
  | tail _ hstep ih =>
      rw [ih] at hstep
      rw [sessionStep_gameover_fix hstep hg]

/-- Claim C5: in every state reachable within a session (start followed by
any sequence of selection and tick events), timeLeft is never negative,
score and level never decrease, and once the status is gameover no tick or
selection event changes score, level, or gridSize. -/
theorem C5_session_invariants (st0 : AppState) (r : RandSrc)
    (s s' : AppState) (h1 : Reachable (startGame r st0) s)
    (h2 : Reachable s s') :
    0 ≤ s'.game.timeLeft ∧
    s.game.score ≤ s'.game.score ∧
    s.game.level ≤ s'.game.level ∧
    (s.game.status = Status.gameover →
      s'.game.score = s.game.score ∧ s'.game.level = s.game.level ∧
      s'.game.gridSize = s.game.gridSize) := by
  have hstart : (0 : ℤ) ≤ (startGame r st0).game.timeLeft := by
    simp [startGame, generateLevel, INITIAL_TIME]
  refine ⟨reachable_timeLeft_nonneg (h1.trans h2) hstart,
    (reachable_mono h2).1, (reachable_mono h2).2, ?_⟩
  intro hg
  rw [reachable_gameover_fix h2 hg]
  exact ⟨rfl, rfl, rfl⟩

/-- Witness for C5 on the trivial trace from a fresh start. -/
theorem C5_session_invariants_witness :
    0 ≤ (startGame r0 idleApp).game.timeLeft :=
  (C5_session_invariants idleApp r0 (startGame r0 idleApp)
    (startGame r0 idleApp) Relation.ReflTransGen.refl
    Relation.ReflTransGen.refl).1

/-! ## Difficulty-delta facts -/

/-- Helper: the denominator of the difficulty formula is at least 1. -/
theorem diffDelta_denom_ge_one (L : ℕ) :
    1 ≤ 1 + Real.logb 2 ((L : ℝ) + 1) * 0.8 := by
  have hcast : (0 : ℝ) ≤ (L : ℝ) := Nat.cast_nonneg L
  have hlog : 0 ≤ Real.logb 2 ((L : ℝ) + 1) :=
    Real.logb_nonneg (by norm_num) (by linarith)
  nlinarith

/-- Helper: the perturbation magnitude is always at least 2. -/
theorem diffDelta_ge_two (L : ℕ) : 2 ≤ diffDelta L := by
  unfold diffDelta
  exact le_max_left _ _

/-- Helper: the perturbation magnitude is non-increasing in the level. -/
theorem diffDelta_antitone {L M : ℕ} (h : L ≤ M) :
    diffDelta M ≤ diffDelta L := by
  unfold diffDelta
  apply max_le_max (le_refl 2)
  have hL0 : (0 : ℝ) < (L : ℝ) + 1 := by positivity
  have hLM : (L : ℝ) + 1 ≤ (M : ℝ) + 1 := by
    have : (L : ℝ) ≤ (M : ℝ) := Nat.cast_le.mpr h
    linarith
  have hlog : Real.logb 2 ((L : ℝ) + 1) ≤ Real.logb 2 ((M : ℝ) + 1) :=
    Real.logb_le_logb_of_le (by norm_num) hL0 hLM
  have hdL : (0 : ℝ) < 1 + Real.logb 2 ((L : ℝ) + 1) * 0.8 := by
    have := diffDelta_denom_ge_one L
    linarith
  have hdM : (0 : ℝ) < 1 + Real.logb 2 ((M : ℝ) + 1) * 0.8 := by
    have := diffDelta_denom_ge_one M
    linarith
  have hBD : (0 : ℝ) ≤ BASE_DIFFERENCE := by unfold BASE_DIFFERENCE; norm_num
  apply div_le_div_of_nonneg_left hBD hdL
  linarith

/-- Helper: from level 2^24 on, the clamp is active and the magnitude is
exactly 2. -/
theorem diffDelta_eq_two_of_ge (M : ℕ) (h : 2 ^ 24 ≤ M) : diffDelta M = 2 := by
  unfold diffDelta BASE_DIFFERENCE
  apply max_eq_left
  have hM0 : (0 : ℝ) < (M : ℝ) + 1 := by positivity
  have hpow : ((2 : ℝ) ^ (24 : ℕ)) ≤ (M : ℝ) + 1 := by
    have : ((2 ^ 24 : ℕ) : ℝ) ≤ (M : ℝ) := Nat.cast_le.mpr h
    push_cast at this
    linarith
  have h24 : (24 : ℝ) ≤ Real.logb 2 ((M : ℝ) + 1) := by
    have hbase : Real.logb 2 ((2 : ℝ) ^ (24 : ℕ)) = 24 := by
      rw [Real.logb_pow, Real.logb_self_eq_one (by norm_num)]
      norm_num
    calc (24 : ℝ) = Real.logb 2 ((2 : ℝ) ^ (24 : ℕ)) := hbase.symm
      _ ≤ Real.logb 2 ((M : ℝ) + 1) :=
        Real.logb_le_logb_of_le (by norm_num) (by positivity) hpow
  have hdM : (0 : ℝ) < 1 + Real.logb 2 ((M : ℝ) + 1) * 0.8 := by
    have := diffDelta_denom_ge_one M
    linarith
  rw [div_le_iff₀ hdM]
  nlinarith

/-- Counterexample for C7 as stated: at the explicit level 2^24 = 16777216
the perturbation magnitude equals exactly 2, so it does reach 2 (and is no
longer strictly decreasing from there on). -/
theorem C7_delta_reaches_two : diffDelta (2 ^ 24) = 2 :=
  diffDelta_eq_two_of_ge (2 ^ 24) (le_refl _)

/-- Claim C7 (amended): for every positive level, the perturbation
magnitude is non-increasing in the level, is always at least 2 (hence
never zero), and for every level ≥ 2^24 it equals exactly 2 (the max-clamp
is reached, so the magnitude attains rather than only approaches 2). -/
theorem C7_diffDelta_amended (L : ℕ) (_hL : 1 ≤ L) :
    (∀ M : ℕ, L ≤ M → diffDelta M ≤ diffDelta L) ∧
    2 ≤ diffDelta L ∧ diffDelta L ≠ 0 ∧
    (∀ M : ℕ, 2 ^ 24 ≤ M → diffDelta M = 2) := by
  refine ⟨fun M hM => diffDelta_antitone hM, diffDelta_ge_two L, ?_,
    fun M hM => diffDelta_eq_two_of_ge M hM⟩
  have := diffDelta_ge_two L
  intro h0
  rw [h0] at this
  norm_num at this

/-- Witness for C7 (amended) at level 1. -/
theorem C7_diffDelta_amended_witness : 2 ≤ diffDelta 1 :=
  (C7_diffDelta_amended 1 (by decide)).2.1

/-- Claim C1: for every base color, every positive level and either random
channel choice, the variant returned by `getDifferentColor` keeps the hue
and the unchosen channel unchanged and moves the chosen channel (lightness
when `changeLightness`, saturation otherwise) by exactly
max(2, 40/(1 + log2(level+1)·0.8)) — the value `diffDelta level` — so the
variant differs from the base in that one channel alone. -/
theorem C1_getDifferentColor_spec (base : Color) (level : ℕ) (cl : Bool)
    (_hl : 1 ≤ level) :
    (getDifferentColor base level cl).h = base.h ∧
    (cl = true →
      (getDifferentColor base level cl).s = base.s ∧
      |(getDifferentColor base level cl).l - base.l| = diffDelta level ∧
      (getDifferentColor base level cl).l ≠ base.l) ∧
    (cl = false →
      (getDifferentColor base level cl).l = base.l ∧
      |(getDifferentColor base level cl).s - base.s| = diffDelta level ∧
      (getDifferentColor base level cl).s ≠ base.s) := by
  have hd2 := diffDelta_ge_two level
  have hd : 0 < diffDelta level := by linarith
  refine ⟨rfl, ?_, ?_⟩
  · rintro rfl
    refine ⟨by simp [getDifferentColor], ?_, ?_⟩
    · by_cases h90 : base.l + diffDelta level > 90
      · simp only [getDifferentColor, if_pos h90, if_true]
        rw [show base.l - diffDelta level - base.l = -(diffDelta level) by
          ring]
        rw [abs_neg, abs_of_pos hd]
      · simp only [getDifferentColor, if_neg h90, if_true]
        rw [show base.l + diffDelta level - base.l = diffDelta level by ring]
        exact abs_of_pos hd
    · by_cases h90 : base.l + diffDelta level > 90
      · simp only [getDifferentColor, if_pos h90, if_true]
        intro heq
        have : diffDelta level = 0 := by linarith
        linarith
      · simp only [getDifferentColor, if_neg h90, if_true]
        intro heq
        have : diffDelta level = 0 := by linarith
        linarith
  · rintro rfl
    refine ⟨by simp [getDifferentColor], ?_, ?_⟩
    · by_cases h90 : base.s + diffDelta level > 90
      · simp only [getDifferentColor, if_pos h90]
        simp only [Bool.not_false, if_true, if_false]
        rw [show base.s - diffDelta level - base.s = -(diffDelta level) by
          ring]
        rw [abs_neg, abs_of_pos hd]
      · simp only [getDifferentColor, if_neg h90]
        simp only [Bool.not_false, if_true, if_false]
        rw [show base.s + diffDelta level - base.s = diffDelta level by ring]
        exact abs_of_pos hd
    · by_cases h90 : base.s + diffDelta level > 90
      · simp only [getDifferentColor, if_pos h90]
        simp only [Bool.not_false, if_true, if_false]
        intro heq
        have : diffDelta level = 0 := by linarith
        linarith
      · simp only [getDifferentColor, if_neg h90]
        simp only [Bool.not_false, if_true, if_false]
        intro heq
        have : diffDelta level = 0 := by linarith
        linarith

/-- Witness for C1 at a concrete base color and level 1. -/
theorem C1_getDifferentColor_spec_witness :
    (getDifferentColor ⟨0, 50, 50⟩ 1 true).h = (Color.mk 0 50 50).h :=
  (C1_getDifferentColor_spec ⟨0, 50, 50⟩ 1 true (by decide)).1

/-! ## Variant-index facts -/

/-- The level invariant claimed by the spec: the variant index is in
[0, gridSize²) and exactly one of the gridSize² cells renders the variant
color. -/
def oneVariantCell (st : AppState) : Prop :=
  0 ≤ st.colors.diffIndex ∧
  st.colors.diffIndex < (st.game.gridSize : ℤ) ^ 2 ∧
  ∃! i : ℤ, (0 ≤ i ∧ i < (st.game.gridSize : ℤ) ^ 2) ∧
    renderCell st.colors i = st.colors.diff

/-- Helper: floor of a `[0,1)` draw scaled by a positive count stays in
range. -/
theorem floor_scaled_draw_range {u : ℚ} (h0 : 0 ≤ u) (h1 : u < 1) (n : ℕ)
    (hn : 0 < n) : 0 ≤ ⌊u * (n : ℚ)⌋ ∧ ⌊u * (n : ℚ)⌋ < (n : ℤ) := by
  constructor
  · exact Int.floor_nonneg.mpr (mul_nonneg h0 (by positivity))
  · apply Int.floor_lt.mpr
    push_cast
    have hn' : (0 : ℚ) < (n : ℚ) := by exact_mod_cast hn
    calc u * (n : ℚ) < 1 * (n : ℚ) := mul_lt_mul_of_pos_right h1 hn'
      _ = (n : ℚ) := one_mul _

/-- Helper: the variant color never equals the base color: the chosen
channel moves by `diffDelta level > 0`. -/
theorem getDifferentColor_ne (base : Color) (level : ℕ) (cl : Bool) :
    getDifferentColor base level cl ≠ base := by
  have hd2 := diffDelta_ge_two level
  have hd : 0 < diffDelta level := by linarith
  cases cl with
  | true =>
      intro heq
      have hl := congrArg Color.l heq
      by_cases h90 : base.l + diffDelta level > 90
      · simp only [getDifferentColor, if_pos h90, if_true] at hl
        linarith
      · simp only [getDifferentColor, if_neg h90, if_true] at hl
        linarith
  | false =>
      intro heq
      have hs := congrArg Color.s heq
      by_cases h90 : base.s + diffDelta level > 90
      · simp only [getDifferentColor, if_pos h90, Bool.not_false, if_true,
          if_false] at hs
        linarith
      · simp only [getDifferentColor, if_neg h90, Bool.not_false, if_true,
          if_false] at hs
        linarith

/-- Helper: an in-range variant index whose variant color differs from the
base gives the one-variant-cell invariant. -/
theorem oneVariantCell_of (st : AppState) (h0 : 0 ≤ st.colors.diffIndex)
    (h1 : st.colors.diffIndex < (st.game.gridSize : ℤ) ^ 2)
    (hne : st.colors.diff ≠ st.colors.base) : oneVariantCell st := by
  refine ⟨h0, h1, st.colors.diffIndex, ⟨⟨h0, h1⟩, ?_⟩, ?_⟩
  · rw [renderCell, if_pos rfl]
  · rintro j ⟨⟨hj0, hj1⟩, hjr⟩
    by_contra hj
    rw [renderCell, if_neg hj] at hjr
    exact hne hjr.symm

/-- Helper: `generateLevel` always establishes the one-variant-cell
invariant when its index draw comes from `[0,1)`. -/
theorem generateLevel_oneVariantCell (level : ℕ) (r : RandSrc)
    (st : AppState) (hu0 : 0 ≤ r.uIdx) (hu1 : r.uIdx < 1) :
    oneVariantCell (generateLevel level r st) := by
  have hg2 : 2 ≤ gridSizeForLevel level := by
    unfold gridSizeForLevel MAX_GRID_SIZE INITIAL_GRID_SIZE
    omega
  have hgpos : 0 < gridSizeForLevel level * gridSizeForLevel level := by
    nlinarith
  have hfl := floor_scaled_draw_range hu0 hu1
    (gridSizeForLevel level * gridSizeForLevel level) hgpos
  apply oneVariantCell_of
  · simpa [generateLevel] using hfl.1
  · have hlt := hfl.2
    simp only [generateLevel]
    push_cast at hlt ⊢
    nlinarith [hlt]
  · simp only [generateLevel]
    exact getDifferentColor_ne _ _ _

/-- Claim C8: the variant cell index lies in [0, gridSize²) for the grid
size of its level and exactly one of the gridSize² cells renders the
variant color; this holds for every generated level, in particular after a
start and after a correct selection. -/
theorem C8_variant_index_spec (level : ℕ) (r : RandSrc) (st : AppState)
    (_hl : 1 ≤ level) (hu0 : 0 ≤ r.uIdx) (hu1 : r.uIdx < 1) :
    oneVariantCell (generateLevel level r st) ∧
    oneVariantCell (startGame r st) ∧
    (st.game.status = Status.playing →
      oneVariantCell (handleBlockClick st.colors.diffIndex r st)) := by
  refine ⟨generateLevel_oneVariantCell level r st hu0 hu1, ?_, ?_⟩
  · unfold startGame
    exact generateLevel_oneVariantCell 1 r _ hu0 hu1
  · intro hp
    have he : handleBlockClick st.colors.diffIndex r st =
        generateLevel (st.game.level + 1) r
          { st with
            game :=
              { st.game with
                score := st.game.score + 1
                level := st.game.level + 1
                timeLeft := st.game.timeLeft + 1 } } := by
      unfold handleBlockClick
      simp [hp]
    rw [he]
    exact generateLevel_oneVariantCell _ r _ hu0 hu1

/-- Witness for C8 with all draws zero at level 1. -/
theorem C8_variant_index_spec_witness :
    oneVariantCell (generateLevel 1 r0 idleApp) :=
  (C8_variant_index_spec 1 r0 idleApp (by decide) (by decide) (by decide)).1

end ChromaticVision
